import Mathlib

/-!
Shallow embedding of the Lending & Access Control Engine of the
digital-content lending platform:

* `src/types/digital-content.ts` — `LoanStatus`, `DigitalLoan`,
  `DigitalContentMetadata` (availability-relevant fields);
* `src/lib/loan-management.ts` — `DigitalLoanManager` (checkout, return,
  expire, renew, queries, auto-return scheduling) and `LoanRules`;
* the DRM / access-control module — `DRMController` (token issue /
  validate / revoke) and `AccessControlManager` (`authorizeDownload`,
  `validateAccess`);
* the digital-catalog module — `DigitalContent.isAvailable` /
  `decrementAvailableCopies` / `incrementAvailableCopies`;
* the checkout API route — loan-period and concurrent-loan policy checks
  performed before `checkoutContent` is invoked.

Modelling conventions: JS `Date` values are integer millisecond
timestamps (`Int`); `Date.setDate(getDate() + d)` is adding `d` whole
days. JS `Map` objects are association lists with `Map.set` replace-or-
append semantics; JS `Set` is a duplicate-free list. Randomly generated
identifiers (loan ids, secure tokens) are passed in as explicit `fresh`
arguments. `setTimeout` registrations are recorded in an explicit
`schedule` list of `(loanId, fireTime)` pairs — the source never stores
the timer handle, so nothing ever removes an entry; the runtime firing a
timer for `(loanId, t)` at wall time `t` invokes `expireLoan loanId`.
-/

set_option autoImplicit false

namespace Lending

/-- Milliseconds in one day (JS date arithmetic is modelled in ms). -/
def msPerDay : Int := 86400000

/-- Milliseconds in one hour. -/
def msPerHour : Int := 3600000

/-- `date.setDate(date.getDate() + d)`: move a timestamp by `d` days. -/
def addDays (t : Int) (d : Int) : Int := t + d * msPerDay

/-- `date.setHours(date.getHours() + h)`: move a timestamp by `h` hours. -/
def addHours (t : Int) (h : Int) : Int := t + h * msPerHour

/-- `enum LoanStatus` from `src/types/digital-content.ts`. -/
inductive LoanStatus where
  | active
  | expired
  | returned
deriving DecidableEq, Repr

/-- `interface DigitalLoan` from `src/types/digital-content.ts`
(`autoReturnScheduled` is set to `true` at checkout and never read). -/
structure DigitalLoan where
  loanId : String
  contentId : String
  userId : String
  checkoutDate : Int
  expirationDate : Int
  status : LoanStatus
  autoReturnScheduled : Bool
  downloadToken : Option String
deriving DecidableEq, Repr

/-- The availability-relevant part of `DigitalContentMetadata`:
`totalCopies` and `availableCopies` (the other metadata fields play no
role in lending). -/
structure ContentMeta where
  totalCopies : Int
  availableCopies : Int
deriving DecidableEq, Repr

/-- `DigitalContent.isAvailable`. -/
def isAvailable (c : ContentMeta) : Bool := c.availableCopies > 0

/-- `DigitalContent.decrementAvailableCopies` (guarded at zero). -/
def decrementAvailableCopies (c : ContentMeta) : ContentMeta :=
  if c.availableCopies > 0 then
    { c with availableCopies := c.availableCopies - 1 }
  else c

/-- `DigitalContent.incrementAvailableCopies` (capped at `totalCopies`). -/
def incrementAvailableCopies (c : ContentMeta) : ContentMeta :=
  if c.availableCopies < c.totalCopies then
    { c with availableCopies := c.availableCopies + 1 }
  else c

/-- JS `Map.get`. -/
def findEntry {V : Type} : List (String × V) → String → Option V
  | [], _ => none
  | (k, v) :: rest, key => if k = key then some v else findEntry rest key

/-- JS `Map.set`: replace the value at an existing key, else append. -/
def setEntry {V : Type} : List (String × V) → String → V → List (String × V)
  | [], key, v => [(key, v)]
  | (k, w) :: rest, key, v =>
      if k = key then (key, v) :: rest else (k, w) :: setEntry rest key v

/-- JS `Map.delete`. -/
def delEntry {V : Type} : List (String × V) → String → List (String × V)
  | [], _ => []
  | (k, w) :: rest, key => if k = key then rest else (k, w) :: delEntry rest key

/-- JS `Set.add`: append the element if not already present. -/
def addToSet (xs : List String) (x : String) : List String :=
  if x ∈ xs then xs else xs ++ [x]

/-- `interface CheckoutRequest`. -/
structure CheckoutRequest where
  contentId : String
  userId : String
  loanPeriodDays : Int
deriving DecidableEq, Repr

/-- `interface CheckoutResponse`. -/
structure CheckoutResponse where
  success : Bool
  loanId : Option String := none
  expirationDate : Option Int := none
  downloadUrl : Option String := none
  error : Option String := none
deriving DecidableEq, Repr

/-- The mutable state of a `DigitalLoanManager` together with the
catalog it mutates through `DigitalCatalogManager.getContent` and the
set of armed `setTimeout` auto-return triggers. -/
structure LoanState where
  loans : List (String × DigitalLoan)
  userLoans : List (String × List String)
  catalog : List (String × ContentMeta)
  schedule : List (String × Int)
deriving DecidableEq, Repr

/-- `DigitalLoanManager.getLoan`. -/
def getLoan (s : LoanState) (loanId : String) : Option DigitalLoan :=
  findEntry s.loans loanId

/-- `DigitalLoanManager.getUserLoans`. -/
def getUserLoans (s : LoanState) (userId : String) : List DigitalLoan :=
  match findEntry s.userLoans userId with
  | none => []
  | some loanIds => loanIds.filterMap (fun lid => findEntry s.loans lid)

/-- `DigitalLoanManager.getActiveUserLoans`. -/
def getActiveUserLoans (s : LoanState) (userId : String) : List DigitalLoan :=
  (getUserLoans s userId).filter (fun loan => loan.status = LoanStatus.active)

/-- `DigitalLoanManager.hasActiveCheckout`. -/
def hasActiveCheckout (s : LoanState) (userId contentId : String) : Bool :=
  (getActiveUserLoans s userId).any (fun loan => loan.contentId = contentId)

/-- `DigitalLoanManager.getTimeRemaining` at wall time `now`. -/
def getTimeRemaining (s : LoanState) (loanId : String) (now : Int) : Int :=
  match getLoan s loanId with
  | none => 0
  | some loan =>
      if loan.status ≠ LoanStatus.active then 0
      else max 0 (loan.expirationDate - now)

/-- `DigitalLoanManager.scheduleAutoReturn`: arm a `setTimeout` for
`expireLoan loanId` if the delay is positive.  The handle is dropped by
the source, so no existing entry is ever cancelled. -/
def scheduleAutoReturn (s : LoanState) (now : Int) (loanId : String)
    (expirationDate : Int) : LoanState :=
  if expirationDate - now > 0 then
    { s with schedule := s.schedule ++ [(loanId, expirationDate)] }
  else s

/-- `DigitalLoanManager.generateAccessToken`: the pre-base64 payload
`loanId-Date.now()` (base64 encoding is injective, so it is dropped). -/
def generateAccessToken (loanId : String) (now : Int) : String :=
  loanId ++ "-" ++ toString now

/-- `DigitalLoanManager.generateDownloadUrl`. -/
def generateDownloadUrl (loanId : String) (now : Int) : String :=
  "/api/digital/download/" ++ loanId ++ "?token=" ++ generateAccessToken loanId now

/-- The loan record created inside `checkoutContent`. -/
def checkoutLoan (now : Int) (freshLoanId : String) (request : CheckoutRequest) :
    DigitalLoan :=
  { loanId := freshLoanId
    contentId := request.contentId
    userId := request.userId
    checkoutDate := now
    expirationDate := addDays now request.loanPeriodDays
    status := LoanStatus.active
    autoReturnScheduled := true
    downloadToken := none }

/-- `DigitalLoanManager.checkoutContent`.  `freshLoanId` stands for the
value of `generateLoanId()` (timestamp + random suffix). -/
def checkoutContent (s : LoanState) (now : Int) (freshLoanId : String)
    (request : CheckoutRequest) : CheckoutResponse × LoanState :=
  match findEntry s.catalog request.contentId with
  | none => ({ success := false, error := some "Content not found" }, s)
  | some content =>
    if ¬ isAvailable content then
      ({ success := false, error := some "Content not available" }, s)
    else if hasActiveCheckout s request.userId request.contentId then
      ({ success := false, error := some "Content already checked out by user" }, s)
    else
      let expirationDate := addDays now request.loanPeriodDays
      let loan : DigitalLoan := checkoutLoan now freshLoanId request
      let userSet := (findEntry s.userLoans request.userId).getD []
      let s1 : LoanState :=
        { s with
          loans := setEntry s.loans freshLoanId loan
          userLoans := setEntry s.userLoans request.userId (addToSet userSet freshLoanId)
          catalog := setEntry s.catalog request.contentId (decrementAvailableCopies content) }
      let s2 := scheduleAutoReturn s1 now freshLoanId expirationDate
      ({ success := true
         loanId := some freshLoanId
         expirationDate := some expirationDate
         downloadUrl := some (generateDownloadUrl freshLoanId now) }, s2)

/-- `DigitalLoanManager.returnContent`. -/
def returnContent (s : LoanState) (loanId : String) : Bool × LoanState :=
  match findEntry s.loans loanId with
  | none => (false, s)
  | some loan =>
    if loan.status ≠ LoanStatus.active then (false, s)
    else
      let s1 : LoanState :=
        { s with loans := setEntry s.loans loanId { loan with status := LoanStatus.returned } }
      match findEntry s1.catalog loan.contentId with
      | none => (true, s1)
      | some content =>
          (true, { s1 with
                   catalog := setEntry s1.catalog loan.contentId
                     (incrementAvailableCopies content) })

/-- `DigitalLoanManager.revokeAccess` (private): only clears the loan's
`downloadToken` field; it never touches the `DRMController`. -/
def revokeAccessLoanManager (s : LoanState) (loanId : String) : LoanState :=
  match findEntry s.loans loanId with
  | none => s
  | some loan =>
      { s with loans := setEntry s.loans loanId { loan with downloadToken := none } }

/-- `DigitalLoanManager.expireLoan` (the `setTimeout` callback). -/
def expireLoan (s : LoanState) (loanId : String) : LoanState :=
  match findEntry s.loans loanId with
  | none => s
  | some loan =>
    if loan.status ≠ LoanStatus.active then s
    else
      let s1 : LoanState :=
        { s with loans := setEntry s.loans loanId { loan with status := LoanStatus.expired } }
      let s2 : LoanState :=
        match findEntry s1.catalog loan.contentId with
        | none => s1
        | some content =>
            { s1 with
              catalog := setEntry s1.catalog loan.contentId
                (incrementAvailableCopies content) }
      revokeAccessLoanManager s2 loanId

/-- `DigitalLoanManager.renewLoan` at wall time `now`. -/
def renewLoan (s : LoanState) (loanId : String) (extensionDays : Int)
    (now : Int) : Bool × LoanState :=
  match findEntry s.loans loanId with
  | none => (false, s)
  | some loan =>
    if loan.status ≠ LoanStatus.active then (false, s)
    else
      let newExpirationDate := addDays loan.expirationDate extensionDays
      let loanRenewed : DigitalLoan := { loan with expirationDate := newExpirationDate }
      let s1 : LoanState := { s with loans := setEntry s.loans loanId loanRenewed }
      (true, scheduleAutoReturn s1 now loanId newExpirationDate)

/-- `LoanRules.MAX_CONCURRENT_LOANS`. -/
def MAX_CONCURRENT_LOANS : Nat := 10

/-- `LoanRules.MAX_LOAN_PERIOD_DAYS`. -/
def MAX_LOAN_PERIOD_DAYS : Int := 21

/-- `LoanRules.MIN_LOAN_PERIOD_DAYS`. -/
def MIN_LOAN_PERIOD_DAYS : Int := 1

/-- `LoanRules.canCheckout`. -/
def canCheckout (userId : String) (s : LoanState) : Bool :=
  (getActiveUserLoans s userId).length < MAX_CONCURRENT_LOANS

/-- `LoanRules.isValidLoanPeriod`. -/
def isValidLoanPeriod (days : Int) : Bool :=
  MIN_LOAN_PERIOD_DAYS ≤ days ∧ days ≤ MAX_LOAN_PERIOD_DAYS

/-- The `POST /api/digital/checkout` route handler: field presence,
`LoanRules.isValidLoanPeriod`, `LoanRules.canCheckout`, then
`DigitalLoanManager.checkoutContent`. -/
def checkoutRoute (s : LoanState) (now : Int) (freshLoanId : String)
    (request : CheckoutRequest) : CheckoutResponse × LoanState :=
  if request.contentId = "" ∨ request.userId = "" ∨ request.loanPeriodDays = 0 then
    ({ success := false, error := some "Missing required fields" }, s)
  else if ¬ isValidLoanPeriod request.loanPeriodDays then
    ({ success := false,
       error := some "Loan period must be between 1 and 21 days" }, s)
  else if ¬ canCheckout request.userId s then
    ({ success := false,
       error := some "Maximum concurrent loans (10) reached" }, s)
  else
    checkoutContent s now freshLoanId request

/-- `interface AccessToken` from the DRM module. -/
structure AccessToken where
  token : String
  loanId : String
  userId : String
  contentId : String
  issuedAt : Int
  expiresAt : Int
  deviceId : Option String := none
  ipAddress : Option String := none
deriving DecidableEq, Repr

/-- The mutable state of a `DRMController`: `activeTokens` map and
`revokedTokens` set (`encryptionKeys` is never used by access control). -/
structure DRMState where
  activeTokens : List (String × AccessToken)
  revokedTokens : List String
deriving DecidableEq, Repr

/-- `DRMController.generateAccessToken`.  `freshToken` stands for the
value of `createSecureToken()` (32 random bytes, hex encoded). -/
def drmGenerateAccessToken (d : DRMState) (freshToken : String)
    (loanId userId contentId : String) (now : Int) (durationHours : Int)
    (deviceId ipAddress : Option String) : String × DRMState :=
  let entry : AccessToken :=
    { token := freshToken
      loanId := loanId
      userId := userId
      contentId := contentId
      issuedAt := now
      expiresAt := addHours now durationHours
      deviceId := deviceId
      ipAddress := ipAddress }
  (freshToken, { d with activeTokens := setEntry d.activeTokens freshToken entry })

/-- `DRMController.revokeToken`. -/
def revokeToken (d : DRMState) (token : String) : DRMState :=
  { activeTokens := delEntry d.activeTokens token
    revokedTokens := d.revokedTokens ++ [token] }

/-- `DRMController.validateAccessToken` at wall time `now`.  Returns the
boolean result together with the possibly-mutated controller state
(an expired token is revoked as a side effect). -/
def validateAccessToken (d : DRMState) (token : String) (now : Int) :
    Bool × DRMState :=
  if token ∈ d.revokedTokens then (false, d)
  else
    match findEntry d.activeTokens token with
    | none => (false, d)
    | some entry =>
        if now > entry.expiresAt then (false, revokeToken d token)
        else (true, d)

/-- `DRMController.revokeAllTokensForLoan`. -/
def revokeAllTokensForLoan (d : DRMState) (loanId : String) : DRMState :=
  let tokensToRevoke :=
    (d.activeTokens.filter (fun p => p.2.loanId = loanId)).map (fun p => p.1)
  tokensToRevoke.foldl revokeToken d

/-- `DRMController.getTokenInfo`. -/
def getTokenInfo (d : DRMState) (token : String) : Option AccessToken :=
  findEntry d.activeTokens token

/-- The result object of `AccessControlManager.authorizeDownload`. -/
structure AuthorizationResult where
  authorized : Bool
  token : Option String := none
  error : Option String := none
deriving DecidableEq, Repr

/-- `AccessControlManager.authorizeDownload` at wall time `now`, over
the loan-manager state `s` and the DRM controller state `d`. -/
def authorizeDownload (s : LoanState) (d : DRMState) (loanId userId : String)
    (now : Int) (freshToken : String) (deviceId ipAddress : Option String) :
    AuthorizationResult × DRMState :=
  match getLoan s loanId with
  | none => ({ authorized := false, error := some "Loan not found" }, d)
  | some loan =>
    if loan.userId ≠ userId then
      ({ authorized := false, error := some "Unauthorized user" }, d)
    else if getTimeRemaining s loanId now ≤ 0 then
      ({ authorized := false, error := some "Loan expired" }, d)
    else
      let issued := drmGenerateAccessToken d freshToken loanId userId
        loan.contentId now 24 deviceId ipAddress
      ({ authorized := true, token := some issued.1 }, issued.2)

/-- `AccessControlManager.validateAccess` at wall time `now`: Token
Authority validation, then the bound-content check via `getTokenInfo`. -/
def validateAccess (d : DRMState) (token contentId : String) (now : Int) :
    Bool × DRMState :=
  let v := validateAccessToken d token now
  if ¬ v.1 then (false, v.2)
  else
    match getTokenInfo v.2 token with
    | none => (false, v.2)
    | some info => (info.contentId = contentId, v.2)

/-- `AccessControlManager.revokeAccess`: delegates to
`DRMController.revokeAllTokensForLoan`. -/
def revokeAccessACM (d : DRMState) (loanId : String) : DRMState :=
  revokeAllTokensForLoan d loanId

/-- Catalog bounds invariant: every item satisfies
`0 ≤ availableCopies ≤ totalCopies`. -/
def catalogInv (s : LoanState) : Prop :=
  ∀ k c, findEntry s.catalog k = some c →
    0 ≤ c.availableCopies ∧ c.availableCopies ≤ c.totalCopies

/-- Well-formedness of a loan map together with a user-index map:
user loan-id sets are duplicate-free, every recorded loan carries its
own key as `loanId`, every loan is indexed in its user's set, a user's
set only references that user's loans, and every indexed loan id
resolves in the loan map (loans are never deleted). -/
def wfMaps (loans : List (String × DigitalLoan))
    (userLoans : List (String × List String)) : Prop :=
  (∀ u ids, findEntry userLoans u = some ids → ids.Nodup) ∧
  (∀ lid loan, findEntry loans lid = some loan → loan.loanId = lid) ∧
  (∀ lid loan, findEntry loans lid = some loan →
     ∃ ids, findEntry userLoans loan.userId = some ids ∧ lid ∈ ids) ∧
  (∀ u ids, findEntry userLoans u = some ids →
     ∀ lid ∈ ids, ∀ loan, findEntry loans lid = some loan → loan.userId = u) ∧
  (∀ u ids, findEntry userLoans u = some ids →
     ∀ lid ∈ ids, ∃ loan, findEntry loans lid = some loan)

/-- Ledger well-formedness, maintained by the `DigitalLoanManager`
bookkeeping. -/
def LedgerWF (s : LoanState) : Prop := wfMaps s.loans s.userLoans

/-- At most one `active` loan per (user, item) pair in a loan map. -/
def oneActiveMaps (loans : List (String × DigitalLoan)) : Prop :=
  ∀ k1 k2 l1 l2, findEntry loans k1 = some l1 → findEntry loans k2 = some l2 →
    l1.status = LoanStatus.active → l2.status = LoanStatus.active →
    l1.userId = l2.userId → l1.contentId = l2.contentId → k1 = k2

/-- The (user, item) uniqueness invariant: at most one `active` loan per
pair in the ledger. -/
def OneActivePerPair (s : LoanState) : Prop := oneActiveMaps s.loans

/-! Concrete fixtures used by witnesses and counterexample scenarios. -/

/-- An empty `DRMController`. -/
def emptyDRM : DRMState := { activeTokens := [], revokedTokens := [] }

/-- A catalog holding one item with two copies. -/
def demoStart : LoanState :=
  { loans := []
    userLoans := []
    catalog := [("ebook-001", { totalCopies := 2, availableCopies := 2 })]
    schedule := [] }

/-- Checkout of `ebook-001` by `user-001` for 14 days at time 0. -/
def demoCheckout : CheckoutResponse × LoanState :=
  checkoutContent demoStart 0 "L1"
    { contentId := "ebook-001", userId := "user-001", loanPeriodDays := 14 }

/-- A download authorization by the loan's owner at time 0, issuing
DRM token `T1`. -/
def demoAuth : AuthorizationResult × DRMState :=
  authorizeDownload demoCheckout.2 emptyDRM "L1" "user-001" 0 "T1" none none

/-- Renewal of the demo loan by 7 days, one day after checkout. -/
def demoRenew : Bool × LoanState :=
  renewLoan demoCheckout.2 "L1" 7 msPerDay

/-- The demo checkout request. -/
def demoReq : CheckoutRequest :=
  { contentId := "ebook-001", userId := "user-001", loanPeriodDays := 14 }

/-- A catalog whose only item has no available copies. -/
def drainedState : LoanState :=
  { loans := []
    userLoans := []
    catalog := [("ebook-001", { totalCopies := 2, availableCopies := 0 })]
    schedule := [] }

/-- An active loan fixture for the concurrency-ceiling scenario. -/
def mkActiveLoan (lid c : String) : DigitalLoan :=
  { loanId := lid, contentId := c, userId := "user-001", checkoutDate := 0,
    expirationDate := 1209600000, status := LoanStatus.active,
    autoReturnScheduled := true, downloadToken := none }

/-- A ledger where `user-001` holds ten active loans (the policy
ceiling) and one further item is available. -/
def tenState : LoanState :=
  { loans := [("L1", mkActiveLoan "L1" "c1"), ("L2", mkActiveLoan "L2" "c2"),
      ("L3", mkActiveLoan "L3" "c3"), ("L4", mkActiveLoan "L4" "c4"),
      ("L5", mkActiveLoan "L5" "c5"), ("L6", mkActiveLoan "L6" "c6"),
      ("L7", mkActiveLoan "L7" "c7"), ("L8", mkActiveLoan "L8" "c8"),
      ("L9", mkActiveLoan "L9" "c9"), ("L10", mkActiveLoan "L10" "c10")]
    userLoans := [("user-001",
      ["L1", "L2", "L3", "L4", "L5", "L6", "L7", "L8", "L9", "L10"])]
    catalog := [("ebook-011", { totalCopies := 1, availableCopies := 1 })]
    schedule := [] }

/-- The 11th checkout request of the concurrency scenario. -/
def tenReq : CheckoutRequest :=
  { contentId := "ebook-011", userId := "user-001", loanPeriodDays := 14 }

/-! Map lemmas. -/

theorem findEntry_setEntry {V : Type} (m : List (String × V)) (key k : String) (v : V) :
    findEntry (setEntry m key v) k = if key = k then some v else findEntry m k := by
  induction m with
  | nil => by_cases h : key = k <;> simp [setEntry, findEntry, h]
  | cons hd tl ih =>
      obtain ⟨a, b⟩ := hd
      by_cases h1 : a = key
      · subst h1
        by_cases h2 : a = k <;> simp [setEntry, findEntry, h2]
      · by_cases h2 : a = k
        · subst h2
          have hne : ¬ key = a := fun e => h1 e.symm
          simp [setEntry, findEntry, h1, hne]
        · simp [setEntry, findEntry, h1, h2, ih]

theorem findEntry_setEntry_self {V : Type} (m : List (String × V)) (key : String) (v : V) :
    findEntry (setEntry m key v) key = some v := by
  simp [findEntry_setEntry]

theorem findEntry_setEntry_ne {V : Type} (m : List (String × V)) (key k : String) (v : V)
    (h : key ≠ k) : findEntry (setEntry m key v) k = findEntry m k := by
  simp [findEntry_setEntry, h]

theorem scheduleAutoReturn_loans (s : LoanState) (now : Int) (l : String) (e : Int) :
    (scheduleAutoReturn s now l e).loans = s.loans := by
  unfold scheduleAutoReturn; split <;> rfl

theorem scheduleAutoReturn_userLoans (s : LoanState) (now : Int) (l : String) (e : Int) :
    (scheduleAutoReturn s now l e).userLoans = s.userLoans := by
  unfold scheduleAutoReturn; split <;> rfl

theorem scheduleAutoReturn_catalog (s : LoanState) (now : Int) (l : String) (e : Int) :
    (scheduleAutoReturn s now l e).catalog = s.catalog := by
  unfold scheduleAutoReturn; split <;> rfl

/-! Shapes of `checkoutContent`. -/

theorem checkoutContent_not_found (s : LoanState) (now : Int) (lid : String)
    (req : CheckoutRequest) (h : findEntry s.catalog req.contentId = none) :
    checkoutContent s now lid req =
      ({ success := false, error := some "Content not found" }, s) := by
  simp [checkoutContent, h]

theorem checkoutContent_unavailable (s : LoanState) (now : Int) (lid : String)
    (req : CheckoutRequest) (c : ContentMeta)
    (h : findEntry s.catalog req.contentId = some c)
    (hav : isAvailable c = false) :
    checkoutContent s now lid req =
      ({ success := false, error := some "Content not available" }, s) := by
  simp [checkoutContent, h, hav]

theorem checkoutContent_duplicate (s : LoanState) (now : Int) (lid : String)
    (req : CheckoutRequest) (c : ContentMeta)
    (h : findEntry s.catalog req.contentId = some c)
    (hav : isAvailable c = true)
    (hdup : hasActiveCheckout s req.userId req.contentId = true) :
    checkoutContent s now lid req =
      ({ success := false, error := some "Content already checked out by user" }, s) := by
  simp [checkoutContent, h, hav, hdup]

theorem checkoutContent_success_eq (s : LoanState) (now : Int) (lid : String)
    (req : CheckoutRequest) (c : ContentMeta)
    (h : findEntry s.catalog req.contentId = some c)
    (hav : isAvailable c = true)
    (hdup : hasActiveCheckout s req.userId req.contentId = false) :
    checkoutContent s now lid req =
      ({ success := true, loanId := some lid,
         expirationDate := some (addDays now req.loanPeriodDays),
         downloadUrl := some (generateDownloadUrl lid now) },
       scheduleAutoReturn
         { loans := setEntry s.loans lid (checkoutLoan now lid req)
           userLoans := setEntry s.userLoans req.userId
             (addToSet ((findEntry s.userLoans req.userId).getD []) lid)
           catalog := setEntry s.catalog req.contentId (decrementAvailableCopies c)
           schedule := s.schedule }
         now lid (addDays now req.loanPeriodDays)) := by
  simp [checkoutContent, h, hav, hdup]

theorem checkoutContent_success_conditions (s : LoanState) (now : Int) (lid : String)
    (req : CheckoutRequest)
    (h : (checkoutContent s now lid req).1.success = true) :
    ∃ c, findEntry s.catalog req.contentId = some c ∧ isAvailable c = true ∧
      hasActiveCheckout s req.userId req.contentId = false := by
  rcases hc : findEntry s.catalog req.contentId with _ | c
  · rw [checkoutContent_not_found s now lid req hc] at h
    simp at h
  · rcases hav : isAvailable c with _ | _
    · rw [checkoutContent_unavailable s now lid req c hc hav] at h
      simp at h
    · rcases hdup : hasActiveCheckout s req.userId req.contentId with _ | _
      · exact ⟨c, rfl, hav, rfl⟩
      · rw [checkoutContent_duplicate s now lid req c hc hav hdup] at h
        simp at h

theorem checkoutContent_failure_state (s : LoanState) (now : Int) (lid : String)
    (req : CheckoutRequest)
    (h : (checkoutContent s now lid req).1.success = false) :
    (checkoutContent s now lid req).2 = s := by
  rcases hc : findEntry s.catalog req.contentId with _ | c
  · rw [checkoutContent_not_found s now lid req hc]
  · rcases hav : isAvailable c with _ | _
    · rw [checkoutContent_unavailable s now lid req c hc hav]
    · rcases hdup : hasActiveCheckout s req.userId req.contentId with _ | _
      · exfalso
        rw [checkoutContent_success_eq s now lid req c hc hav hdup] at h
        simp at h
      · rw [checkoutContent_duplicate s now lid req c hc hav hdup]

/-! Catalog bounds preservation. -/

theorem decrement_bounds (c : ContentMeta)
    (h : 0 ≤ c.availableCopies ∧ c.availableCopies ≤ c.totalCopies) :
    0 ≤ (decrementAvailableCopies c).availableCopies ∧
      (decrementAvailableCopies c).availableCopies ≤
        (decrementAvailableCopies c).totalCopies := by
  obtain ⟨ha, hb⟩ := h
  unfold decrementAvailableCopies
  split
  · constructor <;> simp <;> omega
  · exact ⟨ha, hb⟩

theorem increment_bounds (c : ContentMeta)
    (h : 0 ≤ c.availableCopies ∧ c.availableCopies ≤ c.totalCopies) :
    0 ≤ (incrementAvailableCopies c).availableCopies ∧
      (incrementAvailableCopies c).availableCopies ≤
        (incrementAvailableCopies c).totalCopies := by
  obtain ⟨ha, hb⟩ := h
  unfold incrementAvailableCopies
  split
  · constructor <;> simp <;> omega
  · exact ⟨ha, hb⟩

theorem increment_decrement (c : ContentMeta) (h0 : 0 < c.availableCopies)
    (h1 : c.availableCopies ≤ c.totalCopies) :
    incrementAvailableCopies (decrementAvailableCopies c) = c := by
  rcases c with ⟨T, a⟩
  simp only at h0 h1
  unfold decrementAvailableCopies incrementAvailableCopies
  split_ifs with hd hi hi2 <;> simp_all
  omega

/-- Updating one key with a value inside bounds keeps all catalog
entries inside bounds. -/
theorem catalogBounds_setEntry (cat : List (String × ContentMeta)) (k : String)
    (v : ContentMeta)
    (hinv : ∀ k2 c2, findEntry cat k2 = some c2 →
      0 ≤ c2.availableCopies ∧ c2.availableCopies ≤ c2.totalCopies)
    (hv : 0 ≤ v.availableCopies ∧ v.availableCopies ≤ v.totalCopies) :
    ∀ k2 c2, findEntry (setEntry cat k v) k2 = some c2 →
      0 ≤ c2.availableCopies ∧ c2.availableCopies ≤ c2.totalCopies := by
  intro k2 c2 h
  rw [findEntry_setEntry] at h
  by_cases he : k = k2
  · rw [if_pos he] at h
    obtain rfl : v = c2 := by injection h
    exact hv
  · rw [if_neg he] at h
    exact hinv k2 c2 h

/-- C9 helper: adding a negative number of days moves a timestamp into
the past. -/
theorem addDays_lt_of_neg (t d : Int) (h : d < 0) : addDays t d < t := by
  have hm : d * msPerDay < 0 :=
    mul_neg_of_neg_of_pos h (by norm_num [msPerDay])
  simp only [addDays]
  omega

end Lending

namespace Lending

/-- C9: `renewLoan` performs no validation of `extensionDays`: for every
active loan and every integer extension — zero and negative included —
it returns `true` and sets the expiration to the previous expiration
plus `extensionDays` days, so a negative extension strictly shortens the
loan. -/
theorem C9_renew_accepts_any_extension (s : LoanState) (loanId : String)
    (extensionDays now : Int) (loan : DigitalLoan)
    (hfind : getLoan s loanId = some loan)
    (hactive : loan.status = LoanStatus.active) :
    (renewLoan s loanId extensionDays now).1 = true ∧
    getLoan (renewLoan s loanId extensionDays now).2 loanId =
      some { loan with expirationDate := addDays loan.expirationDate extensionDays } ∧
    (extensionDays < 0 →
      addDays loan.expirationDate extensionDays < loan.expirationDate) := by
  have hfind' : findEntry s.loans loanId = some loan := hfind
  refine ⟨?_, ?_, fun h => addDays_lt_of_neg _ _ h⟩
  · simp [renewLoan, hfind', hactive]
  · simp [renewLoan, getLoan, hfind', hactive, scheduleAutoReturn_loans,
      findEntry_setEntry_self]

/-- Witness for C9 at a concrete renewed loan with a negative extension. -/
theorem C9_witness :
    (renewLoan demoCheckout.2 "L1" (-7) 0).1 = true ∧
    getLoan (renewLoan demoCheckout.2 "L1" (-7) 0).2 "L1" =
      some { loanId := "L1", contentId := "ebook-001", userId := "user-001",
             checkoutDate := 0, expirationDate := addDays 1209600000 (-7),
             status := LoanStatus.active, autoReturnScheduled := true,
             downloadToken := none } ∧
    ((-7 : Int) < 0 → addDays 1209600000 (-7) < 1209600000) := by
  exact C9_renew_accepts_any_extension demoCheckout.2 "L1" (-7) 0
    { loanId := "L1", contentId := "ebook-001", userId := "user-001",
      checkoutDate := 0, expirationDate := 1209600000,
      status := LoanStatus.active, autoReturnScheduled := true,
      downloadToken := none } (by decide) rfl

/-- C10: `authorizeDownload` denies with "Loan expired" whenever the
loan's expiration timestamp is at or before `now`, regardless of the
stored status (the check goes through `getTimeRemaining`, which clamps
to zero at or after the expiration), and issues no token. -/
theorem C10_no_token_past_expiration (s : LoanState) (d : DRMState)
    (loanId userId : String) (now : Int) (freshToken : String)
    (deviceId ipAddress : Option String) (loan : DigitalLoan)
    (hfind : getLoan s loanId = some loan)
    (howner : loan.userId = userId)
    (hpast : loan.expirationDate ≤ now) :
    authorizeDownload s d loanId userId now freshToken deviceId ipAddress =
      ({ authorized := false, error := some "Loan expired" }, d) := by
  have htime : getTimeRemaining s loanId now ≤ 0 := by
    simp only [getTimeRemaining, hfind]
    by_cases hst : loan.status = LoanStatus.active
    · simp only [hst, ne_eq, not_true_eq_false, if_false, ite_false, max_le_iff]
      omega
    · simp [hst]
  unfold authorizeDownload
  rw [hfind]
  simp [howner, htime]

/-- Witness for C10: an `active` loan whose expiration has passed is
denied even though no expiration trigger has fired. -/
theorem C10_witness :
    authorizeDownload demoCheckout.2 emptyDRM "L1" "user-001" 1300000000 "T9" none none =
      ({ authorized := false, error := some "Loan expired" }, emptyDRM) := by
  exact C10_no_token_past_expiration demoCheckout.2 emptyDRM "L1" "user-001"
    1300000000 "T9" none none
    { loanId := "L1", contentId := "ebook-001", userId := "user-001",
      checkoutDate := 0, expirationDate := 1209600000,
      status := LoanStatus.active, autoReturnScheduled := true,
      downloadToken := none } (by decide) rfl (by decide)

/-- Helper: a positively-validated token leaves the controller state
untouched ("touch to expire" only mutates on the failure path). -/
theorem validateAccessToken_true_state (d : DRMState) (token : String) (now : Int)
    (h : (validateAccessToken d token now).1 = true) :
    (validateAccessToken d token now).2 = d := by
  by_cases hrev : token ∈ d.revokedTokens
  · simp [validateAccessToken, hrev] at h
  · rcases hfind : findEntry d.activeTokens token with _ | entry
    · simp [validateAccessToken, hrev, hfind] at h
    · by_cases hexp : now > entry.expiresAt
      · simp [validateAccessToken, hrev, hfind, hexp] at h
      · simp [validateAccessToken, hrev, hfind, hexp]

/-- C7: `authorizeDownload` fails with "Loan not found" for an unknown
loan, "Unauthorized user" when the loan's user differs from the caller
(leaving the token store untouched, so any previously issued token still
validates), "Loan expired" when the remaining time is non-positive, and
authorizes only when the loan exists, is owned by the caller, and has
positive remaining time. -/
theorem C7_authorize_download_error_cases (s : LoanState) (d : DRMState)
    (loanId userId : String) (now : Int) (ft : String) (dev ip : Option String) :
    (getLoan s loanId = none →
       authorizeDownload s d loanId userId now ft dev ip =
         ({ authorized := false, error := some "Loan not found" }, d)) ∧
    (∀ loan, getLoan s loanId = some loan → loan.userId ≠ userId →
       authorizeDownload s d loanId userId now ft dev ip =
         ({ authorized := false, error := some "Unauthorized user" }, d) ∧
       (∀ t c n2, (validateAccess d t c n2).1 = true →
         (validateAccess (authorizeDownload s d loanId userId now ft dev ip).2 t c n2).1 = true)) ∧
    (∀ loan, getLoan s loanId = some loan → loan.userId = userId →
       getTimeRemaining s loanId now ≤ 0 →
       authorizeDownload s d loanId userId now ft dev ip =
         ({ authorized := false, error := some "Loan expired" }, d)) ∧
    (∀ r d2, authorizeDownload s d loanId userId now ft dev ip = (r, d2) →
       r.authorized = true →
       ∃ loan, getLoan s loanId = some loan ∧ loan.userId = userId ∧
         0 < getTimeRemaining s loanId now) := by
  refine ⟨?_, ?_, ?_, ?_⟩
  · intro hnone
    simp [authorizeDownload, hnone]
  · intro loan hfind hne
    have hres : authorizeDownload s d loanId userId now ft dev ip =
        ({ authorized := false, error := some "Unauthorized user" }, d) := by
      simp [authorizeDownload, hfind, hne]
    exact ⟨hres, fun t c n2 hv => by rw [hres]; exact hv⟩
  · intro loan hfind heq htime
    simp [authorizeDownload, hfind, heq, htime]
  · intro r d2 hres hauth
    rcases hfind : getLoan s loanId with _ | loan
    · rw [authorizeDownload, hfind] at hres
      simp at hres
      rw [← hres.1] at hauth
      simp at hauth
    · rw [authorizeDownload, hfind] at hres
      by_cases hown : loan.userId = userId
      · by_cases htime : getTimeRemaining s loanId now ≤ 0
        · simp [hown, htime] at hres
          rw [← hres.1] at hauth
          simp at hauth
        · exact ⟨loan, rfl, hown, by omega⟩
      · simp [hown] at hres
        rw [← hres.1] at hauth
        simp at hauth

/-- Witness for C7: all three denial cases at concrete inputs, and the
token issued to the owner before the wrong-user denial still validates
afterwards. -/
theorem C7_witness :
    authorizeDownload demoCheckout.2 demoAuth.2 "LX" "user-001" 0 "T2" none none =
      ({ authorized := false, error := some "Loan not found" }, demoAuth.2) ∧
    authorizeDownload demoCheckout.2 demoAuth.2 "L1" "user-002" 0 "T2" none none =
      ({ authorized := false, error := some "Unauthorized user" }, demoAuth.2) ∧
    (validateAccess
        (authorizeDownload demoCheckout.2 demoAuth.2 "L1" "user-002" 0 "T2" none none).2
        "T1" "ebook-001" 1000).1 = true ∧
    authorizeDownload demoCheckout.2 demoAuth.2 "L1" "user-001" 1300000000 "T2" none none =
      ({ authorized := false, error := some "Loan expired" }, demoAuth.2) := by
  have h := C7_authorize_download_error_cases demoCheckout.2 demoAuth.2 "L1" "user-001" 0 "T2" none none
  have hx := C7_authorize_download_error_cases demoCheckout.2 demoAuth.2 "LX" "user-001" 0 "T2" none none
  have hu := C7_authorize_download_error_cases demoCheckout.2 demoAuth.2 "L1" "user-002" 0 "T2" none none
  have he := C7_authorize_download_error_cases demoCheckout.2 demoAuth.2 "L1" "user-001" 1300000000 "T2" none none
  have demoLoan : getLoan demoCheckout.2 "L1" =
      some { loanId := "L1", contentId := "ebook-001", userId := "user-001",
             checkoutDate := 0, expirationDate := 1209600000,
             status := LoanStatus.active, autoReturnScheduled := true,
             downloadToken := none } := by decide
  have hu2 := hu.2.1 _ demoLoan (by decide)
  refine ⟨hx.1 (by decide), hu2.1, hu2.2 "T1" "ebook-001" 1000 (by decide), ?_⟩
  exact he.2.2.1 _ demoLoan rfl (by decide)

/-- C8: `returnContent` returns `true` iff the loan exists and is
`active`; on success it transitions the loan to `returned` and releases
the reserved copy through the capped increment; otherwise it returns
`false` and changes no state, so a second return of the same loan is a
`false` no-op. -/
theorem C8_return_content_semantics (s : LoanState) (loanId : String) :
    ((returnContent s loanId).1 = true ↔
      ∃ loan, getLoan s loanId = some loan ∧ loan.status = LoanStatus.active) ∧
    (∀ loan, getLoan s loanId = some loan → loan.status = LoanStatus.active →
      getLoan (returnContent s loanId).2 loanId =
        some { loan with status := LoanStatus.returned } ∧
      (∀ c, findEntry s.catalog loan.contentId = some c →
        findEntry (returnContent s loanId).2.catalog loan.contentId =
          some (incrementAvailableCopies c))) ∧
    ((returnContent s loanId).1 = false → (returnContent s loanId).2 = s) ∧
    ((returnContent s loanId).1 = true →
      returnContent (returnContent s loanId).2 loanId =
        (false, (returnContent s loanId).2)) := by
  have hsucc : ∀ loan, getLoan s loanId = some loan → loan.status = LoanStatus.active →
      getLoan (returnContent s loanId).2 loanId =
        some { loan with status := LoanStatus.returned } ∧
      (∀ c, findEntry s.catalog loan.contentId = some c →
        findEntry (returnContent s loanId).2.catalog loan.contentId =
          some (incrementAvailableCopies c)) := by
    intro loan hfind hactive
    have hfind' : findEntry s.loans loanId = some loan := hfind
    rcases hcat : findEntry s.catalog loan.contentId with _ | c
    · refine ⟨?_, fun c hc => absurd hc (by simp)⟩
      simp [returnContent, getLoan, hfind', hactive, hcat, findEntry_setEntry_self]
    · refine ⟨?_, fun c2 hc2 => ?_⟩
      · simp [returnContent, getLoan, hfind', hactive, hcat, findEntry_setEntry_self]
      · obtain rfl : c = c2 := by injection hc2
        simp [returnContent, hfind', hactive, hcat, findEntry_setEntry_self]
  have hiff : (returnContent s loanId).1 = true ↔
      ∃ loan, getLoan s loanId = some loan ∧ loan.status = LoanStatus.active := by
    constructor
    · intro h
      rcases hfind : findEntry s.loans loanId with _ | loan
      · simp [returnContent, hfind] at h
      · by_cases hactive : loan.status = LoanStatus.active
        · exact ⟨loan, hfind, hactive⟩
        · simp [returnContent, hfind, hactive] at h
    · rintro ⟨loan, hfind, hactive⟩
      have hfind' : findEntry s.loans loanId = some loan := hfind
      rcases hcat : findEntry s.catalog loan.contentId with _ | c <;>
        simp [returnContent, hfind', hactive, hcat]
  have hnoop : (returnContent s loanId).1 = false → (returnContent s loanId).2 = s := by
    intro h
    rcases hfind : findEntry s.loans loanId with _ | loan
    · simp [returnContent, hfind]
    · by_cases hactive : loan.status = LoanStatus.active
      · exfalso
        have := hiff.mpr ⟨loan, hfind, hactive⟩
        rw [h] at this
        exact Bool.false_ne_true this
      · simp [returnContent, hfind, hactive]
  refine ⟨hiff, hsucc, hnoop, ?_⟩
  intro h
  obtain ⟨loan, hfind, hactive⟩ := hiff.mp h
  obtain ⟨h2, -⟩ := hsucc loan hfind hactive
  set s2 := (returnContent s loanId).2 with hs2
  have hfind2 : findEntry s2.loans loanId =
      some { loan with status := LoanStatus.returned } := h2
  simp [returnContent, hfind2]

/-- Witness for C8: the demo loan returns successfully, restoring the
copy count, and a second return is a `false` no-op. -/
theorem C8_witness :
    (returnContent demoCheckout.2 "L1").1 = true ∧
    getLoan (returnContent demoCheckout.2 "L1").2 "L1" =
      some { loanId := "L1", contentId := "ebook-001", userId := "user-001",
             checkoutDate := 0, expirationDate := 1209600000,
             status := LoanStatus.returned, autoReturnScheduled := true,
             downloadToken := none } ∧
    findEntry (returnContent demoCheckout.2 "L1").2.catalog "ebook-001" =
      some { totalCopies := 2, availableCopies := 2 } ∧
    returnContent (returnContent demoCheckout.2 "L1").2 "L1" =
      (false, (returnContent demoCheckout.2 "L1").2) := by
  have h := C8_return_content_semantics demoCheckout.2 "L1"
  have demoLoan : getLoan demoCheckout.2 "L1" =
      some { loanId := "L1", contentId := "ebook-001", userId := "user-001",
             checkoutDate := 0, expirationDate := 1209600000,
             status := LoanStatus.active, autoReturnScheduled := true,
             downloadToken := none } := by decide
  have hs := h.2.1 _ demoLoan rfl
  have htrue : (returnContent demoCheckout.2 "L1").1 = true :=
    h.1.mpr ⟨_, demoLoan, rfl⟩
  refine ⟨htrue, hs.1, ?_, h.2.2.2 htrue⟩
  have := hs.2 { totalCopies := 2, availableCopies := 1 } (by decide)
  simpa [incrementAvailableCopies] using this

/-- C5: `validateAccess` is true only if the Token Authority validates
the token and the token's bound content identifier equals `itemId`;
consequently a freshly issued token for item A validates against A and
against no distinct item B. -/
theorem C5_validate_access_requires_bound_item :
    (∀ d token itemId now, (validateAccess d token itemId now).1 = true →
       (validateAccessToken d token now).1 = true ∧
       ∃ info, getTokenInfo d token = some info ∧ info.contentId = itemId) ∧
    (∀ d ft loanId userId A now dur dev ip,
       ft ∉ d.revokedTokens → 0 ≤ dur →
       (validateAccess (drmGenerateAccessToken d ft loanId userId A now dur dev ip).2
          (drmGenerateAccessToken d ft loanId userId A now dur dev ip).1 A now).1 = true ∧
       (∀ B, B ≠ A →
         (validateAccess (drmGenerateAccessToken d ft loanId userId A now dur dev ip).2
            (drmGenerateAccessToken d ft loanId userId A now dur dev ip).1 B now).1 = false)) := by
  constructor
  · intro d token itemId now h
    by_cases hv : (validateAccessToken d token now).1 = true
    · have hstate := validateAccessToken_true_state d token now hv
      rcases hinfo : getTokenInfo d token with _ | info
      · simp [validateAccess, hv, hstate, hinfo] at h
      · simp [validateAccess, hv, hstate, hinfo] at h
        exact ⟨hv, info, rfl, h⟩
    · simp [validateAccess, hv] at h
  · intro d ft loanId userId A now dur dev ip hrev hdur
    have hexp : ¬ now > addHours now dur := by
      have : 0 ≤ dur * msPerHour :=
        mul_nonneg hdur (by norm_num [msPerHour])
      simp only [addHours]
      omega
    have hval : validateAccessToken
        (drmGenerateAccessToken d ft loanId userId A now dur dev ip).2 ft now = (true,
          (drmGenerateAccessToken d ft loanId userId A now dur dev ip).2) := by
      simp [validateAccessToken, drmGenerateAccessToken, hrev,
        findEntry_setEntry_self, hexp]
    have h1 : (drmGenerateAccessToken d ft loanId userId A now dur dev ip).1 = ft := rfl
    have hinfo : getTokenInfo (drmGenerateAccessToken d ft loanId userId A now dur dev ip).2 ft =
        some { token := ft, loanId := loanId, userId := userId, contentId := A,
               issuedAt := now, expiresAt := addHours now dur, deviceId := dev,
               ipAddress := ip } := by
      simp [drmGenerateAccessToken, getTokenInfo, findEntry_setEntry_self]
    constructor
    · rw [h1]
      simp only [validateAccess, hval]
      simp [hinfo]
    · intro B hB
      have hBA : ¬ (A = B) := fun e => hB e.symm
      rw [h1]
      simp only [validateAccess, hval]
      simp [hinfo, hBA]

/-- Witness for C5: the demo token `T1`, issued for `ebook-001`,
validates against `ebook-001` and not against `ebook-002`. -/
theorem C5_witness :
    (validateAccess (drmGenerateAccessToken emptyDRM "T1" "L1" "user-001" "ebook-001" 0 24 none none).2
       "T1" "ebook-001" 0).1 = true ∧
    (validateAccess (drmGenerateAccessToken emptyDRM "T1" "L1" "user-001" "ebook-001" 0 24 none none).2
       "T1" "ebook-002" 0).1 = false := by
  have h := C5_validate_access_requires_bound_item.2 emptyDRM "T1" "L1" "user-001"
    "ebook-001" 0 24 none none (by decide) (by decide)
  exact ⟨h.1, h.2 "ebook-002" (by decide)⟩

/-- C1 (violated by the code): the state-machine part of expiration
behaves as claimed — the demo loan transitions from `active` to
`expired` and its reserved copy is released — but the token-revocation
part fails: `DigitalLoanManager.expireLoan` calls its own private
`revokeAccess`, which merely clears the loan's (never-assigned)
`downloadToken` field and never reaches
`DRMController.revokeAllTokensForLoan`, so the DRM token `T1` issued
for the loan via `authorizeDownload` still validates after
`expireLoan "L1"` completes on the active demo loan. -/
theorem C1_expire_leaves_drm_token_valid :
    demoAuth.1.authorized = true ∧
    (getLoan demoCheckout.2 "L1").map DigitalLoan.status = some LoanStatus.active ∧
    (getLoan (expireLoan demoCheckout.2 "L1") "L1").map DigitalLoan.status =
      some LoanStatus.expired ∧
    findEntry (expireLoan demoCheckout.2 "L1").catalog "ebook-001" =
      some { totalCopies := 2, availableCopies := 2 } ∧
    (validateAccess demoAuth.2 "T1" "ebook-001" 1000).1 = true := by
  decide

/-- C1 amended behaviour, proved in general: `expireLoan` never touches
any `DRMController` state (its signature does not even receive it), so
every token that validated before the expiration still validates after
it; on an active loan it transitions the status to `expired` and
releases the copy, and on a non-active or unknown loan it is a silent
no-op. -/
theorem C1_expire_state_machine (s : LoanState) (loanId : String) :
    (∀ loan, getLoan s loanId = some loan → loan.status = LoanStatus.active →
      getLoan (expireLoan s loanId) loanId =
        some { loan with status := LoanStatus.expired, downloadToken := none } ∧
      (∀ c, findEntry s.catalog loan.contentId = some c →
        findEntry (expireLoan s loanId).catalog loan.contentId =
          some (incrementAvailableCopies c))) ∧
    (∀ loan, getLoan s loanId = some loan → loan.status ≠ LoanStatus.active →
      expireLoan s loanId = s) ∧
    (getLoan s loanId = none → expireLoan s loanId = s) := by
  refine ⟨?_, ?_, ?_⟩
  · intro loan hfind hactive
    have hfind' : findEntry s.loans loanId = some loan := hfind
    rcases hcat : findEntry s.catalog loan.contentId with _ | c
    · refine ⟨?_, fun c hc => absurd hc (by simp)⟩
      simp [expireLoan, getLoan, hfind', hactive, hcat, revokeAccessLoanManager,
        findEntry_setEntry_self]
    · refine ⟨?_, fun c2 hc2 => ?_⟩
      · simp [expireLoan, getLoan, hfind', hactive, hcat, revokeAccessLoanManager,
          findEntry_setEntry_self]
      · obtain rfl : c = c2 := by injection hc2
        simp [expireLoan, hfind', hactive, hcat, revokeAccessLoanManager,
          findEntry_setEntry_self]
  · intro loan hfind hne
    have hfind' : findEntry s.loans loanId = some loan := hfind
    simp [expireLoan, hfind', hne]
  · intro hnone
    have hnone' : findEntry s.loans loanId = none := hnone
    simp [expireLoan, hnone']

/-- Witness for the amended C1 state-machine theorem at the demo loan. -/
theorem C1_expire_state_machine_witness :
    getLoan (expireLoan demoCheckout.2 "L1") "L1" =
      some { loanId := "L1", contentId := "ebook-001", userId := "user-001",
             checkoutDate := 0, expirationDate := 1209600000,
             status := LoanStatus.expired, autoReturnScheduled := true,
             downloadToken := none } ∧
    expireLoan (expireLoan demoCheckout.2 "L1") "L1" =
      expireLoan demoCheckout.2 "L1" := by
  have h1 := C1_expire_state_machine demoCheckout.2 "L1"
  have demoLoan : getLoan demoCheckout.2 "L1" =
      some { loanId := "L1", contentId := "ebook-001", userId := "user-001",
             checkoutDate := 0, expirationDate := 1209600000,
             status := LoanStatus.active, autoReturnScheduled := true,
             downloadToken := none } := by decide
  have hs := (h1.1 _ demoLoan rfl).1
  have h2 := C1_expire_state_machine (expireLoan demoCheckout.2 "L1") "L1"
  exact ⟨hs, h2.2.1 _ hs (by decide)⟩

/-- C2 (violated by the code): after `renewLoan` the new trigger is
armed at the extended timestamp, but the stale `setTimeout` armed at the
original expiration is never cancelled (`scheduleAutoReturn` drops the
timer handle), and `expireLoan` re-checks only the status — not the
extended expiration date — at fire time.  So when the stale trigger
fires at the original timestamp (day 14), the renewed demo loan, still
`active` with expiration at day 21, is transitioned to `expired`
prematurely instead of remaining `active`. -/
theorem C2_stale_trigger_expires_renewed_loan :
    demoRenew.1 = true ∧
    (getLoan demoRenew.2 "L1").map (fun l => (l.status, l.expirationDate)) =
      some (LoanStatus.active, addDays 0 21) ∧
    ("L1", addDays 0 14) ∈ demoRenew.2.schedule ∧
    ("L1", addDays 0 21) ∈ demoRenew.2.schedule ∧
    (getLoan (expireLoan demoRenew.2 "L1") "L1").map
        (fun l => (l.status, l.expirationDate)) =
      some (LoanStatus.expired, addDays 0 21) := by
  decide

/-- Helper: `revokeAccess` in the loan manager never touches the
catalog. -/
theorem revokeAccessLoanManager_catalog (s : LoanState) (loanId : String) :
    (revokeAccessLoanManager s loanId).catalog = s.catalog := by
  unfold revokeAccessLoanManager
  split <;> rfl

/-- C3: copy accounting.  (i) An item with zero available copies always
fails checkout with "Content not available" and the state is unchanged;
(ii) a successful checkout finds a strictly positive count and
decrements it by exactly one; (iii) a subsequent successful return or
expiration of that very loan restores the count exactly (the increment
is capped at `totalCopies`); (iv)–(vi) `0 ≤ availableCopies ≤
totalCopies` is preserved by checkout, return, and expire. -/
theorem C3_copy_accounting :
    (∀ s now lid req c, findEntry s.catalog req.contentId = some c →
       c.availableCopies = 0 →
       checkoutContent s now lid req =
         ({ success := false, error := some "Content not available" }, s)) ∧
    (∀ s now lid req c, findEntry s.catalog req.contentId = some c →
       (checkoutContent s now lid req).1.success = true →
       0 < c.availableCopies ∧
       findEntry (checkoutContent s now lid req).2.catalog req.contentId =
         some { c with availableCopies := c.availableCopies - 1 }) ∧
    (∀ s now lid req c, findEntry s.catalog req.contentId = some c →
       c.availableCopies ≤ c.totalCopies →
       (checkoutContent s now lid req).1.success = true →
       findEntry (returnContent (checkoutContent s now lid req).2 lid).2.catalog
           req.contentId = some c ∧
       findEntry (expireLoan (checkoutContent s now lid req).2 lid).catalog
           req.contentId = some c) ∧
    (∀ s, catalogInv s → ∀ now lid req, catalogInv (checkoutContent s now lid req).2) ∧
    (∀ s, catalogInv s → ∀ lid, catalogInv (returnContent s lid).2) ∧
    (∀ s, catalogInv s → ∀ lid, catalogInv (expireLoan s lid)) := by
  have hzero : ∀ (s : LoanState) (now : Int) (lid : String) (req : CheckoutRequest)
      (c : ContentMeta), findEntry s.catalog req.contentId = some c →
      c.availableCopies = 0 →
      checkoutContent s now lid req =
        ({ success := false, error := some "Content not available" }, s) := by
    intro s now lid req c hc h0
    exact checkoutContent_unavailable s now lid req c hc
      (by simp [isAvailable, h0])
  have hdec : ∀ (s : LoanState) (now : Int) (lid : String) (req : CheckoutRequest)
      (c : ContentMeta), findEntry s.catalog req.contentId = some c →
      (checkoutContent s now lid req).1.success = true →
      0 < c.availableCopies ∧
      findEntry (checkoutContent s now lid req).2.catalog req.contentId =
        some { c with availableCopies := c.availableCopies - 1 } := by
    intro s now lid req c hc hsucc
    obtain ⟨c2, hc2, hav, hdup⟩ := checkoutContent_success_conditions s now lid req hsucc
    obtain rfl : c = c2 := by rw [hc] at hc2; injection hc2
    have hpos : 0 < c.availableCopies := by simpa [isAvailable] using hav
    refine ⟨hpos, ?_⟩
    rw [checkoutContent_success_eq s now lid req c hc hav hdup]
    simp only [scheduleAutoReturn_catalog]
    rw [show decrementAvailableCopies c =
        { c with availableCopies := c.availableCopies - 1 } by
      simp [decrementAvailableCopies, hpos]]
    exact findEntry_setEntry_self _ _ _
  refine ⟨hzero, hdec, ?_, ?_, ?_, ?_⟩
  · intro s now lid req c hc hbound hsucc
    obtain ⟨c2, hc2, hav, hdup⟩ := checkoutContent_success_conditions s now lid req hsucc
    obtain rfl : c = c2 := by rw [hc] at hc2; injection hc2
    have hpos : 0 < c.availableCopies := by simpa [isAvailable] using hav
    rw [checkoutContent_success_eq s now lid req c hc hav hdup]
    set s2 := scheduleAutoReturn
      { loans := setEntry s.loans lid (checkoutLoan now lid req)
        userLoans := setEntry s.userLoans req.userId
          (addToSet ((findEntry s.userLoans req.userId).getD []) lid)
        catalog := setEntry s.catalog req.contentId (decrementAvailableCopies c)
        schedule := s.schedule }
      now lid (addDays now req.loanPeriodDays) with hs2
    have hloans2 : findEntry s2.loans lid = some (checkoutLoan now lid req) := by
      rw [hs2, scheduleAutoReturn_loans]
      exact findEntry_setEntry_self _ _ _
    have hcat2 : findEntry s2.catalog req.contentId =
        some (decrementAvailableCopies c) := by
      rw [hs2, scheduleAutoReturn_catalog]
      exact findEntry_setEntry_self _ _ _
    have hcontent : (checkoutLoan now lid req).contentId = req.contentId := rfl
    have hrestore : incrementAvailableCopies (decrementAvailableCopies c) = c :=
      increment_decrement c hpos hbound
    constructor
    · simp only [returnContent, hloans2]
      rw [if_neg (by simp [checkoutLoan])]
      simp only [hcontent, hcat2]
      rw [hrestore]
      exact findEntry_setEntry_self _ _ _
    · simp only [expireLoan, hloans2]
      rw [if_neg (by simp [checkoutLoan])]
      simp only [hcontent, hcat2]
      rw [revokeAccessLoanManager_catalog]
      simp only []
      rw [hrestore]
      exact findEntry_setEntry_self _ _ _
  · intro s hinv now lid req
    rcases hsucc : (checkoutContent s now lid req).1.success with _ | _
    · rw [checkoutContent_failure_state s now lid req hsucc]
      exact hinv
    · obtain ⟨c, hc, hav, hdup⟩ := checkoutContent_success_conditions s now lid req hsucc
      rw [checkoutContent_success_eq s now lid req c hc hav hdup]
      intro k2 c2
      rw [scheduleAutoReturn_catalog]
      exact catalogBounds_setEntry s.catalog req.contentId
        (decrementAvailableCopies c) hinv
        (decrement_bounds c (hinv req.contentId c hc)) k2 c2
  · intro s hinv lid
    rcases hf : findEntry s.loans lid with _ | loan
    · simp [returnContent, hf]
      exact hinv
    · by_cases hactive : loan.status = LoanStatus.active
      · rcases hcat : findEntry s.catalog loan.contentId with _ | c
        · simp [returnContent, hf, hactive, hcat]
          exact hinv
        · simp only [returnContent, hf, hactive]
          rw [if_neg (by simp [hactive])]
          simp only [hcat]
          intro k2 c2
          exact catalogBounds_setEntry s.catalog loan.contentId
            (incrementAvailableCopies c) hinv
            (increment_bounds c (hinv loan.contentId c hcat)) k2 c2
      · simp [returnContent, hf, hactive]
        exact hinv
  · intro s hinv lid
    rcases hf : findEntry s.loans lid with _ | loan
    · simp [expireLoan, hf]
      exact hinv
    · by_cases hactive : loan.status = LoanStatus.active
      · rcases hcat : findEntry s.catalog loan.contentId with _ | c
        · simp only [expireLoan, hf]
          rw [if_neg (by simp [hactive])]
          simp only [hcat]
          intro k2 c2
          rw [revokeAccessLoanManager_catalog]
          exact hinv k2 c2
        · simp only [expireLoan, hf]
          rw [if_neg (by simp [hactive])]
          simp only [hcat]
          intro k2 c2
          rw [revokeAccessLoanManager_catalog]
          exact catalogBounds_setEntry s.catalog loan.contentId
            (incrementAvailableCopies c) hinv
            (increment_bounds c (hinv loan.contentId c hcat)) k2 c2
      · simp [expireLoan, hf, hactive]
        exact hinv

/-- Witness for C3 at concrete states: a drained item rejects checkout
unchanged; the demo checkout decrements 2 → 1; returning restores 2. -/
theorem C3_witness :
    checkoutContent drainedState 0 "L9" demoReq =
      ({ success := false, error := some "Content not available" }, drainedState) ∧
    ((0 : Int) < 2 ∧
      findEntry (checkoutContent demoStart 0 "L1" demoReq).2.catalog "ebook-001" =
        some { totalCopies := 2, availableCopies := 1 }) ∧
    findEntry (returnContent (checkoutContent demoStart 0 "L1" demoReq).2 "L1").2.catalog
        "ebook-001" = some { totalCopies := 2, availableCopies := 2 } ∧
    findEntry (expireLoan (checkoutContent demoStart 0 "L1" demoReq).2 "L1").catalog
        "ebook-001" = some { totalCopies := 2, availableCopies := 2 } ∧
    catalogInv (checkoutContent demoStart 0 "L1" demoReq).2 := by
  have h := C3_copy_accounting
  have hinv : catalogInv demoStart := by
    intro k c hk
    simp only [demoStart, findEntry] at hk
    split at hk
    · obtain rfl : ContentMeta.mk 2 2 = c := by injection hk
      constructor <;> norm_num
    · exact absurd hk (by simp)
  have h3 := h.2.2.1 demoStart 0 "L1" demoReq
    { totalCopies := 2, availableCopies := 2 } rfl (by norm_num) (by decide)
  refine ⟨h.1 drainedState 0 "L9" demoReq
      { totalCopies := 2, availableCopies := 0 } rfl rfl, ?_, h3.1, h3.2, ?_⟩
  · exact h.2.1 demoStart 0 "L1" demoReq
      { totalCopies := 2, availableCopies := 2 } rfl (by decide)
  · exact h.2.2.2.1 demoStart hinv 0 "L1" demoReq

/-! Ledger bookkeeping lemmas. -/

theorem setEntry_setEntry {V : Type} (m : List (String × V)) (k : String) (v w : V) :
    setEntry (setEntry m k v) k w = setEntry m k w := by
  induction m with
  | nil => simp [setEntry]
  | cons hd tl ih =>
      obtain ⟨a, b⟩ := hd
      by_cases h : a = k
      · simp [setEntry, h]
      · simp [setEntry, h, ih]

theorem mem_addToSet (xs : List String) (x y : String) :
    y ∈ addToSet xs x ↔ y ∈ xs ∨ y = x := by
  unfold addToSet
  split
  · rename_i hx
    constructor
    · exact Or.inl
    · rintro (h | rfl)
      · exact h
      · exact hx
  · simp

theorem mem_addToSet_self (xs : List String) (x : String) : x ∈ addToSet xs x := by
  rw [mem_addToSet]
  exact Or.inr rfl

theorem addToSet_nodup (xs : List String) (x : String) (h : xs.Nodup) :
    (addToSet xs x).Nodup := by
  unfold addToSet
  split
  · exact h
  · rename_i hx
    rw [List.nodup_append]
    refine ⟨h, List.nodup_singleton x, ?_⟩
    intro a ha hb
    rw [List.mem_singleton] at hb
    subst hb
    exact hx ha

theorem mem_getUserLoans (s : LoanState) (u : String) (loan : DigitalLoan) :
    loan ∈ getUserLoans s u ↔
      ∃ ids, findEntry s.userLoans u = some ids ∧
        ∃ lid ∈ ids, findEntry s.loans lid = some loan := by
  unfold getUserLoans
  rcases hids : findEntry s.userLoans u with _ | ids
  · simp
  · simp [List.mem_filterMap]

theorem hasActiveCheckout_iff (s : LoanState) (u c : String) :
    hasActiveCheckout s u c = true ↔
      ∃ loan ∈ getUserLoans s u, loan.status = LoanStatus.active ∧
        loan.contentId = c := by
  unfold hasActiveCheckout getActiveUserLoans
  rw [List.any_eq_true]
  constructor
  · rintro ⟨loan, hmem, hc⟩
    rw [List.mem_filter] at hmem
    exact ⟨loan, hmem.1, by simpa using hmem.2, by simpa using hc⟩
  · rintro ⟨loan, hmem, hact, hc⟩
    exact ⟨loan, List.mem_filter.mpr ⟨hmem, by simpa using hact⟩, by simpa using hc⟩

/-- If `hasActiveCheckout` reports `false` in a well-formed ledger, no
active loan for that (user, item) pair exists anywhere in the loan map. -/
theorem no_active_pair_of_hasActiveCheckout_false (s : LoanState)
    (hwf : LedgerWF s) (u c : String)
    (h : hasActiveCheckout s u c = false) :
    ∀ k loan, findEntry s.loans k = some loan → loan.userId = u →
      loan.contentId = c → loan.status ≠ LoanStatus.active := by
  intro k loan hk huser hcontent hactive
  obtain ⟨-, -, hw3, -, -⟩ := hwf
  obtain ⟨ids, hids, hkmem⟩ := hw3 k loan hk
  rw [huser] at hids
  have hmem : loan ∈ getUserLoans s u :=
    (mem_getUserLoans s u loan).mpr ⟨ids, hids, k, hkmem, hk⟩
  have : hasActiveCheckout s u c = true :=
    (hasActiveCheckout_iff s u c).mpr ⟨loan, hmem, hactive, hcontent⟩
  rw [h] at this
  exact Bool.false_ne_true this

/-- Updating an existing loan without changing its key, owner, user, or
(when it stays active) its content and status, preserves pair
uniqueness. -/
theorem oneActiveMaps_update (m : List (String × DigitalLoan)) (L : String)
    (loan loan' : DigitalLoan) (hf : findEntry m L = some loan)
    (hcases : loan'.status ≠ LoanStatus.active ∨
      (loan'.userId = loan.userId ∧ loan'.contentId = loan.contentId ∧
       loan'.status = loan.status))
    (hone : oneActiveMaps m) : oneActiveMaps (setEntry m L loan') := by
  intro k1 k2 l1 l2 h1 h2 a1 a2 hu hc
  rw [findEntry_setEntry] at h1 h2
  by_cases e1 : L = k1
  · by_cases e2 : L = k2
    · exact e1.symm.trans e2
    · rw [if_pos e1] at h1
      rw [if_neg e2] at h2
      obtain rfl : loan' = l1 := by injection h1
      rcases hcases with hne | ⟨hu', hc', hs'⟩
      · exact absurd a1 hne
      · subst e1
        exact hone L k2 loan l2 hf h2 (hs'.symm.trans a1) a2
          (hu'.symm.trans hu) (hc'.symm.trans hc)
  · by_cases e2 : L = k2
    · rw [if_neg e1] at h1
      rw [if_pos e2] at h2
      obtain rfl : loan' = l2 := by injection h2
      rcases hcases with hne | ⟨hu', hc', hs'⟩
      · exact absurd a2 hne
      · subst e2
        exact hone k1 L l1 loan h1 hf a1 (hs'.symm.trans a2)
          (hu.trans hu') (hc.trans hc')
    · rw [if_neg e1] at h1
      rw [if_neg e2] at h2
      exact hone k1 k2 l1 l2 h1 h2 a1 a2 hu hc

/-- Updating an existing loan in place (same key, same owner) preserves
ledger well-formedness. -/
theorem wfMaps_update (m : List (String × DigitalLoan))
    (um : List (String × List String)) (L : String) (loan loan' : DigitalLoan)
    (hf : findEntry m L = some loan)
    (hid : loan'.loanId = loan.loanId) (huser : loan'.userId = loan.userId)
    (hwf : wfMaps m um) : wfMaps (setEntry m L loan') um := by
  obtain ⟨w1, w2, w3, w4, w5⟩ := hwf
  refine ⟨w1, ?_, ?_, ?_, ?_⟩
  · intro lid l h
    rw [findEntry_setEntry] at h
    by_cases e : L = lid
    · rw [if_pos e] at h
      obtain rfl : loan' = l := by injection h
      rw [hid, w2 L loan hf, e]
    · rw [if_neg e] at h
      exact w2 lid l h
  · intro lid l h
    rw [findEntry_setEntry] at h
    by_cases e : L = lid
    · rw [if_pos e] at h
      obtain rfl : loan' = l := by injection h
      rw [huser]
      obtain ⟨ids, hids, hmem⟩ := w3 L loan hf
      exact ⟨ids, hids, e ▸ hmem⟩
    · rw [if_neg e] at h
      exact w3 lid l h
  · intro u ids hids lid hmem l h
    rw [findEntry_setEntry] at h
    by_cases e : L = lid
    · rw [if_pos e] at h
      obtain rfl : loan' = l := by injection h
      rw [huser]
      exact w4 u ids hids lid hmem loan (e ▸ hf)
    · rw [if_neg e] at h
      exact w4 u ids hids lid hmem l h
  · intro u ids hids lid hmem
    rw [show findEntry (setEntry m L loan') lid =
        if L = lid then some loan' else findEntry m lid from findEntry_setEntry m L lid loan']
    by_cases e : L = lid
    · exact ⟨loan', by rw [if_pos e]⟩
    · rw [if_neg e]
      exact w5 u ids hids lid hmem

/-- Inserting a fresh loan and indexing it under its user preserves
ledger well-formedness. -/
theorem wfMaps_checkout (m : List (String × DigitalLoan))
    (um : List (String × List String)) (lid u : String) (newLoan : DigitalLoan)
    (hfresh : findEntry m lid = none)
    (hid : newLoan.loanId = lid) (huser : newLoan.userId = u)
    (hwf : wfMaps m um) :
    wfMaps (setEntry m lid newLoan)
      (setEntry um u (addToSet ((findEntry um u).getD []) lid)) := by
  obtain ⟨w1, w2, w3, w4, w5⟩ := hwf
  refine ⟨?_, ?_, ?_, ?_, ?_⟩
  · intro u2 ids2 h
    rw [findEntry_setEntry] at h
    by_cases e : u = u2
    · rw [if_pos e] at h
      obtain rfl : addToSet ((findEntry um u).getD []) lid = ids2 := by injection h
      rcases hu : findEntry um u with _ | ids0
      · exact addToSet_nodup [] lid List.nodup_nil
      · exact addToSet_nodup ids0 lid (w1 u ids0 hu)
    · rw [if_neg e] at h
      exact w1 u2 ids2 h
  · intro lid2 l h
    rw [findEntry_setEntry] at h
    by_cases e : lid = lid2
    · rw [if_pos e] at h
      obtain rfl : newLoan = l := by injection h
      rw [hid, e]
    · rw [if_neg e] at h
      exact w2 lid2 l h
  · intro lid2 l h
    rw [findEntry_setEntry] at h
    by_cases e : lid = lid2
    · rw [if_pos e] at h
      obtain rfl : newLoan = l := by injection h
      refine ⟨addToSet ((findEntry um u).getD []) lid, ?_, ?_⟩
      · rw [huser, findEntry_setEntry, if_pos rfl]
      · exact e ▸ mem_addToSet_self _ lid
    · rw [if_neg e] at h
      obtain ⟨ids, hids, hmem⟩ := w3 lid2 l h
      by_cases eu : u = l.userId
      · refine ⟨addToSet ((findEntry um u).getD []) lid, ?_, ?_⟩
        · rw [findEntry_setEntry, if_pos eu]
        · rw [mem_addToSet]
          refine Or.inl ?_
          rw [eu, hids]
          exact hmem
      · exact ⟨ids, by rw [findEntry_setEntry, if_neg eu]; exact hids, hmem⟩
  · intro u2 ids2 hids2 lid2 hmem2 l h
    rw [findEntry_setEntry] at h hids2
    by_cases e : lid = lid2
    · rw [if_pos e] at h
      obtain rfl : newLoan = l := by injection h
      by_cases eu : u = u2
      · rw [huser, eu]
      · exfalso
        rw [if_neg eu] at hids2
        obtain ⟨lold, hlold⟩ := w5 u2 ids2 hids2 lid2 hmem2
        rw [← e, hfresh] at hlold
        exact absurd hlold (by simp)
    · rw [if_neg e] at h
      by_cases eu : u = u2
      · rw [if_pos eu] at hids2
        obtain rfl : addToSet ((findEntry um u).getD []) lid = ids2 := by injection hids2
        rw [mem_addToSet] at hmem2
        rcases hmem2 with hm | rfl
        · rcases hu : findEntry um u with _ | ids0
          · rw [hu] at hm
            exact absurd hm (by simp)
          · rw [hu] at hm
            exact eu ▸ w4 u ids0 hu lid2 hm l h
        · exact absurd rfl (fun e2 => e e2.symm)
      · rw [if_neg eu] at hids2
        exact w4 u2 ids2 hids2 lid2 hmem2 l h
  · intro u2 ids2 hids2 lid2 hmem2
    rw [findEntry_setEntry] at hids2
    rw [show findEntry (setEntry m lid newLoan) lid2 =
        if lid = lid2 then some newLoan else findEntry m lid2 from
      findEntry_setEntry m lid lid2 newLoan]
    by_cases e : lid = lid2
    · exact ⟨newLoan, by rw [if_pos e]⟩
    · rw [if_neg e]
      by_cases eu : u = u2
      · rw [if_pos eu] at hids2
        obtain rfl : addToSet ((findEntry um u).getD []) lid = ids2 := by injection hids2
        rw [mem_addToSet] at hmem2
        rcases hmem2 with hm | rfl
        · rcases hu : findEntry um u with _ | ids0
          · rw [hu] at hm
            exact absurd hm (by simp)
          · rw [hu] at hm
            exact w5 u ids0 hu lid2 hm
        · exact absurd rfl (fun e2 => e e2.symm)
      · rw [if_neg eu] at hids2
        exact w5 u2 ids2 hids2 lid2 hmem2

/-- Inserting a fresh active loan for a pair with no existing active
loan preserves pair uniqueness. -/
theorem oneActiveMaps_checkout (m : List (String × DigitalLoan)) (lid : String)
    (newLoan : DigitalLoan) (hfresh : findEntry m lid = none)
    (hnew : ∀ k loan, findEntry m k = some loan →
      loan.userId = newLoan.userId → loan.contentId = newLoan.contentId →
      loan.status ≠ LoanStatus.active)
    (hone : oneActiveMaps m) : oneActiveMaps (setEntry m lid newLoan) := by
  intro k1 k2 l1 l2 h1 h2 a1 a2 hu hc
  rw [findEntry_setEntry] at h1 h2
  by_cases e1 : lid = k1
  · by_cases e2 : lid = k2
    · exact e1.symm.trans e2
    · rw [if_pos e1] at h1
      rw [if_neg e2] at h2
      obtain rfl : newLoan = l1 := by injection h1
      exact absurd a2 (hnew k2 l2 h2 hu.symm hc.symm)
  · by_cases e2 : lid = k2
    · rw [if_neg e1] at h1
      rw [if_pos e2] at h2
      obtain rfl : newLoan = l2 := by injection h2
      exact absurd a1 (hnew k1 l1 h1 hu hc)
    · rw [if_neg e1] at h1
      rw [if_neg e2] at h2
      exact hone k1 k2 l1 l2 h1 h2 a1 a2 hu hc

theorem revokeAccessLoanManager_userLoans (s : LoanState) (loanId : String) :
    (revokeAccessLoanManager s loanId).userLoans = s.userLoans := by
  unfold revokeAccessLoanManager
  split <;> rfl

theorem returnContent_userLoans (s : LoanState) (L : String) :
    (returnContent s L).2.userLoans = s.userLoans := by
  rcases hf : findEntry s.loans L with _ | loan
  · simp [returnContent, hf]
  · by_cases ha : loan.status = LoanStatus.active
    · rcases hc : findEntry s.catalog loan.contentId with _ | c <;>
        simp [returnContent, hf, ha, hc]
    · simp [returnContent, hf, ha]

theorem returnContent_loans_success (s : LoanState) (L : String) (loan : DigitalLoan)
    (hf : findEntry s.loans L = some loan) (ha : loan.status = LoanStatus.active) :
    (returnContent s L).2.loans =
      setEntry s.loans L { loan with status := LoanStatus.returned } := by
  rcases hc : findEntry s.catalog loan.contentId with _ | c <;>
    simp [returnContent, hf, ha, hc]

theorem returnContent_noop (s : LoanState) (L : String)
    (h : ∀ loan, findEntry s.loans L = some loan → loan.status ≠ LoanStatus.active) :
    (returnContent s L).2 = s := by
  rcases hf : findEntry s.loans L with _ | loan
  · simp [returnContent, hf]
  · simp [returnContent, hf, h loan hf]

theorem expireLoan_userLoans (s : LoanState) (L : String) :
    (expireLoan s L).userLoans = s.userLoans := by
  rcases hf : findEntry s.loans L with _ | loan
  · simp [expireLoan, hf]
  · by_cases ha : loan.status = LoanStatus.active
    · rcases hc : findEntry s.catalog loan.contentId with _ | c <;>
        simp [expireLoan, hf, ha, hc, revokeAccessLoanManager_userLoans]
    · simp [expireLoan, hf, ha]

theorem expireLoan_loans_success (s : LoanState) (L : String) (loan : DigitalLoan)
    (hf : findEntry s.loans L = some loan) (ha : loan.status = LoanStatus.active) :
    (expireLoan s L).loans = setEntry s.loans L
      { loan with status := LoanStatus.expired, downloadToken := none } := by
  rcases hc : findEntry s.catalog loan.contentId with _ | c <;>
    simp [expireLoan, hf, ha, hc, revokeAccessLoanManager,
      findEntry_setEntry_self, setEntry_setEntry]

theorem expireLoan_noop (s : LoanState) (L : String)
    (h : ∀ loan, findEntry s.loans L = some loan → loan.status ≠ LoanStatus.active) :
    expireLoan s L = s := by
  rcases hf : findEntry s.loans L with _ | loan
  · simp [expireLoan, hf]
  · simp [expireLoan, hf, h loan hf]

theorem renewLoan_userLoans (s : LoanState) (L : String) (ext now : Int) :
    (renewLoan s L ext now).2.userLoans = s.userLoans := by
  rcases hf : findEntry s.loans L with _ | loan
  · simp [renewLoan, hf]
  · by_cases ha : loan.status = LoanStatus.active
    · simp [renewLoan, hf, ha, scheduleAutoReturn_userLoans]
    · simp [renewLoan, hf, ha]

theorem renewLoan_loans_success (s : LoanState) (L : String) (ext now : Int)
    (loan : DigitalLoan) (hf : findEntry s.loans L = some loan)
    (ha : loan.status = LoanStatus.active) :
    (renewLoan s L ext now).2.loans = setEntry s.loans L
      { loan with expirationDate := addDays loan.expirationDate ext } := by
  simp [renewLoan, hf, ha, scheduleAutoReturn_loans]

theorem renewLoan_noop (s : LoanState) (L : String) (ext now : Int)
    (h : ∀ loan, findEntry s.loans L = some loan → loan.status ≠ LoanStatus.active) :
    (renewLoan s L ext now).2 = s := by
  rcases hf : findEntry s.loans L with _ | loan
  · simp [renewLoan, hf]
  · simp [renewLoan, hf, h loan hf]

/-- C6: for every (user, item) pair at most one `active` loan exists in
the ledger: checkout rejects a duplicate request with "Content already
checked out by user" whenever the user already holds an active loan on
the item, and the uniqueness invariant (together with the bookkeeping
well-formedness that makes the duplicate check sound) is preserved by
checkout, return, expire, and renew. -/
theorem C6_one_active_per_pair :
    (∀ s now lid req c, findEntry s.catalog req.contentId = some c →
       isAvailable c = true →
       hasActiveCheckout s req.userId req.contentId = true →
       checkoutContent s now lid req =
         ({ success := false, error := some "Content already checked out by user" }, s)) ∧
    (∀ s now lid req, LedgerWF s → OneActivePerPair s →
       findEntry s.loans lid = none →
       OneActivePerPair (checkoutContent s now lid req).2 ∧
       LedgerWF (checkoutContent s now lid req).2) ∧
    (∀ s lid, LedgerWF s → OneActivePerPair s →
       OneActivePerPair (returnContent s lid).2 ∧ LedgerWF (returnContent s lid).2) ∧
    (∀ s lid, LedgerWF s → OneActivePerPair s →
       OneActivePerPair (expireLoan s lid) ∧ LedgerWF (expireLoan s lid)) ∧
    (∀ s lid ext now, LedgerWF s → OneActivePerPair s →
       OneActivePerPair (renewLoan s lid ext now).2 ∧
       LedgerWF (renewLoan s lid ext now).2) := by
  refine ⟨fun s now lid req c hc hav hdup =>
    checkoutContent_duplicate s now lid req c hc hav hdup, ?_, ?_, ?_, ?_⟩
  · intro s now lid req hwf hone hfresh
    rcases hsucc : (checkoutContent s now lid req).1.success with _ | _
    · rw [checkoutContent_failure_state s now lid req hsucc]
      exact ⟨hone, hwf⟩
    · obtain ⟨c, hc, hav, hdup⟩ := checkoutContent_success_conditions s now lid req hsucc
      have hnew : ∀ k loan, findEntry s.loans k = some loan →
          loan.userId = (checkoutLoan now lid req).userId →
          loan.contentId = (checkoutLoan now lid req).contentId →
          loan.status ≠ LoanStatus.active := by
        intro k loan hk hu2 hc2
        exact no_active_pair_of_hasActiveCheckout_false s hwf req.userId
          req.contentId hdup k loan hk hu2 hc2
      rw [checkoutContent_success_eq s now lid req c hc hav hdup]
      constructor
      · unfold OneActivePerPair
        rw [scheduleAutoReturn_loans]
        exact oneActiveMaps_checkout s.loans lid (checkoutLoan now lid req)
          hfresh hnew hone
      · unfold LedgerWF
        rw [scheduleAutoReturn_loans, scheduleAutoReturn_userLoans]
        exact wfMaps_checkout s.loans s.userLoans lid req.userId
          (checkoutLoan now lid req) hfresh rfl rfl hwf
  · intro s lid hwf hone
    rcases hf : findEntry s.loans lid with _ | loan
    · rw [returnContent_noop s lid (by intro l hl; rw [hf] at hl; exact absurd hl (by simp))]
      exact ⟨hone, hwf⟩
    · by_cases ha : loan.status = LoanStatus.active
      · constructor
        · unfold OneActivePerPair
          rw [returnContent_loans_success s lid loan hf ha]
          exact oneActiveMaps_update s.loans lid loan _ hf (Or.inl (by simp)) hone
        · unfold LedgerWF
          rw [returnContent_loans_success s lid loan hf ha, returnContent_userLoans]
          exact wfMaps_update s.loans s.userLoans lid loan _ hf rfl rfl hwf
      · rw [returnContent_noop s lid
          (by intro l hl; rw [hf] at hl; injection hl with e; exact e ▸ ha)]
        exact ⟨hone, hwf⟩
  · intro s lid hwf hone
    rcases hf : findEntry s.loans lid with _ | loan
    · rw [expireLoan_noop s lid (by intro l hl; rw [hf] at hl; exact absurd hl (by simp))]
      exact ⟨hone, hwf⟩
    · by_cases ha : loan.status = LoanStatus.active
      · constructor
        · unfold OneActivePerPair
          rw [expireLoan_loans_success s lid loan hf ha]
          exact oneActiveMaps_update s.loans lid loan _ hf (Or.inl (by simp)) hone
        · unfold LedgerWF
          rw [expireLoan_loans_success s lid loan hf ha, expireLoan_userLoans]
          exact wfMaps_update s.loans s.userLoans lid loan _ hf rfl rfl hwf
      · rw [expireLoan_noop s lid
          (by intro l hl; rw [hf] at hl; injection hl with e; exact e ▸ ha)]
        exact ⟨hone, hwf⟩
  · intro s lid ext now hwf hone
    rcases hf : findEntry s.loans lid with _ | loan
    · rw [renewLoan_noop s lid ext now
        (by intro l hl; rw [hf] at hl; exact absurd hl (by simp))]
      exact ⟨hone, hwf⟩
    · by_cases ha : loan.status = LoanStatus.active
      · constructor
        · unfold OneActivePerPair
          rw [renewLoan_loans_success s lid ext now loan hf ha]
          exact oneActiveMaps_update s.loans lid loan _ hf
            (Or.inr ⟨rfl, rfl, rfl⟩) hone
        · unfold LedgerWF
          rw [renewLoan_loans_success s lid ext now loan hf ha, renewLoan_userLoans]
          exact wfMaps_update s.loans s.userLoans lid loan _ hf rfl rfl hwf
      · rw [renewLoan_noop s lid ext now
          (by intro l hl; rw [hf] at hl; injection hl with e; exact e ▸ ha)]
        exact ⟨hone, hwf⟩

/-- Witness for C6: the demo user's second checkout of the same item is
rejected with the duplicate error and leaves the state unchanged, and
the invariant holds for the state produced by the first checkout. -/
theorem C6_witness :
    checkoutContent demoCheckout.2 5 "L2" demoReq =
      ({ success := false, error := some "Content already checked out by user" },
       demoCheckout.2) ∧
    OneActivePerPair (checkoutContent demoStart 0 "L1" demoReq).2 ∧
    LedgerWF (checkoutContent demoStart 0 "L1" demoReq).2 := by
  have hwf0 : LedgerWF demoStart := by
    refine ⟨?_, ?_, ?_, ?_, ?_⟩ <;> intro a b h <;> simp [demoStart, findEntry] at h
  have hone0 : OneActivePerPair demoStart := by
    intro k1 k2 l1 l2 h1 h2
    simp [demoStart, findEntry] at h1
  have h := C6_one_active_per_pair
  have h2 := h.2.1 demoStart 0 "L1" demoReq hwf0 hone0 rfl
  exact ⟨h.1 demoCheckout.2 5 "L2" demoReq
    { totalCopies := 2, availableCopies := 1 } (by decide) (by decide) (by decide),
    h2.1, h2.2⟩

/-! Active-loan counting after a return. -/

/-- Replacing the active loan at a duplicate-free indexed key with a
non-active record decreases the user's active-loan count by exactly
one. -/
theorem active_count_return (ids : List String) (L : String)
    (m : List (String × DigitalLoan)) (loanL loanL' : DigitalLoan) :
    ids.Nodup → L ∈ ids → findEntry m L = some loanL →
    loanL.status = LoanStatus.active → loanL'.status ≠ LoanStatus.active →
    ((ids.filterMap (fun lid => findEntry (setEntry m L loanL') lid)).filter
        (fun l => l.status = LoanStatus.active)).length + 1 =
    ((ids.filterMap (fun lid => findEntry m lid)).filter
        (fun l => l.status = LoanStatus.active)).length := by
  induction ids with
  | nil => intro _ hL; exact absurd hL (by simp)
  | cons a tl ih =>
      intro hnd hL hfL haL haL'
      rw [List.nodup_cons] at hnd
      by_cases e : a = L
      · subst e
        have htl : tl.filterMap (fun lid => findEntry (setEntry m a loanL') lid) =
            tl.filterMap (fun lid => findEntry m lid) :=
          List.filterMap_congr (fun x hx => findEntry_setEntry_ne m a x loanL'
            (fun ea => hnd.1 (ea ▸ hx)))
        rw [List.filterMap_cons, List.filterMap_cons,
          findEntry_setEntry_self, hfL, htl]
        rw [List.filter_cons, List.filter_cons]
        rw [if_neg (by simpa using haL'), if_pos (by simpa using haL)]
        simp
      · have hLtl : L ∈ tl := by
          rcases List.mem_cons.mp hL with h | h
          · exact absurd h.symm e
          · exact h
        have hhead : findEntry (setEntry m L loanL') a = findEntry m a :=
          findEntry_setEntry_ne m L a loanL' (fun eL => e eL.symm)
        rw [List.filterMap_cons, List.filterMap_cons, hhead]
        rcases hfa : findEntry m a with _ | la
        · exact ih hnd.2 hLtl hfL haL haL'
        · rw [List.filter_cons, List.filter_cons]
          have ihx := ih hnd.2 hLtl hfL haL haL'
          by_cases hact : la.status = LoanStatus.active
          · rw [if_pos (by simpa using hact), if_pos (by simpa using hact)]
            simpa using ihx
          · rw [if_neg (by simpa using hact), if_neg (by simpa using hact)]
            exact ihx

theorem increment_pos (c : ContentMeta) (h : 0 < c.availableCopies) :
    0 < (incrementAvailableCopies c).availableCopies := by
  unfold incrementAvailableCopies
  split
  · simp
    omega
  · exact h

theorem returnContent_true (s : LoanState) (L : String) (loan : DigitalLoan)
    (hf : findEntry s.loans L = some loan) (ha : loan.status = LoanStatus.active) :
    (returnContent s L).1 = true := by
  rcases hcat : findEntry s.catalog loan.contentId with _ | c <;>
    simp [returnContent, hf, ha, hcat]

/-- A return never makes an available item unavailable (the copy count
only stays or grows). -/
theorem returnContent_catalog_avail (s : LoanState) (L k : String) (c : ContentMeta)
    (hc : findEntry s.catalog k = some c) (hpos : 0 < c.availableCopies) :
    ∃ c2, findEntry (returnContent s L).2.catalog k = some c2 ∧
      0 < c2.availableCopies := by
  rcases hf : findEntry s.loans L with _ | loan
  · exact ⟨c, by simp [returnContent, hf, hc], hpos⟩
  · by_cases ha : loan.status = LoanStatus.active
    · rcases hcat : findEntry s.catalog loan.contentId with _ | c3
      · exact ⟨c, by simp [returnContent, hf, ha, hcat, hc], hpos⟩
      · by_cases ek : loan.contentId = k
        · subst ek
          obtain rfl : c3 = c := by rw [hcat] at hc; injection hc
          refine ⟨incrementAvailableCopies c3, ?_, increment_pos c3 hpos⟩
          simp [returnContent, hf, ha, hcat, findEntry_setEntry_self]
        · refine ⟨c, ?_, hpos⟩
          simp only [returnContent, hf, ha]
          rw [if_neg (by simp [ha])]
          simp only [hcat]
          exact (findEntry_setEntry_ne _ _ _ _ ek).trans hc
    · exact ⟨c, by simp [returnContent, hf, ha, hc], hpos⟩

/-- C4: the concurrency ceiling is enforced on the checkout path before
any mutation.  A checkout request (with a well-formed body and a valid
loan period) by a user whose active-loan count is at or above
`MAX_CONCURRENT_LOANS` fails with the concurrency-limit error and the
state — loans and copy counts included — is returned unchanged; after
the user returns one of the ten active loans, the same request
succeeds. -/
theorem C4_concurrency_ceiling :
    (∀ s now lid req, isValidLoanPeriod req.loanPeriodDays = true →
       req.contentId ≠ "" → req.userId ≠ "" →
       MAX_CONCURRENT_LOANS ≤ (getActiveUserLoans s req.userId).length →
       checkoutRoute s now lid req =
         ({ success := false,
            error := some "Maximum concurrent loans (10) reached" }, s)) ∧
    (∀ s now lid req L ids loanL c,
       findEntry s.userLoans req.userId = some ids → ids.Nodup → L ∈ ids →
       findEntry s.loans L = some loanL → loanL.status = LoanStatus.active →
       (getActiveUserLoans s req.userId).length = MAX_CONCURRENT_LOANS →
       isValidLoanPeriod req.loanPeriodDays = true →
       req.contentId ≠ "" → req.userId ≠ "" →
       findEntry s.catalog req.contentId = some c → isAvailable c = true →
       hasActiveCheckout s req.userId req.contentId = false →
       (returnContent s L).1 = true ∧
       (checkoutRoute (returnContent s L).2 now lid req).1.success = true) := by
  constructor
  · intro s now lid req hval hcf huf hge
    have hdays : req.loanPeriodDays ≠ 0 := by
      simp [isValidLoanPeriod, MIN_LOAN_PERIOD_DAYS, MAX_LOAN_PERIOD_DAYS] at hval
      omega
    rw [show (MAX_CONCURRENT_LOANS : Nat) = 10 from rfl] at hge
    unfold checkoutRoute
    rw [if_neg (by push_neg; exact ⟨hcf, huf, hdays⟩)]
    rw [if_neg (by simp [hval])]
    rw [if_pos (by simp [canCheckout, MAX_CONCURRENT_LOANS]; omega)]
  · intro s now lid req L ids loanL c h1 h2 h3 h4 h5 h6 hval hcf huf hc hav hdup
    have hdays : req.loanPeriodDays ≠ 0 := by
      simp [isValidLoanPeriod, MIN_LOAN_PERIOD_DAYS, MAX_LOAN_PERIOD_DAYS] at hval
      omega
    have hret := returnContent_true s L loanL h4 h5
    refine ⟨hret, ?_⟩
    have hLoans : (returnContent s L).2.loans =
        setEntry s.loans L { loanL with status := LoanStatus.returned } :=
      returnContent_loans_success s L loanL h4 h5
    have hUsers : (returnContent s L).2.userLoans = s.userLoans :=
      returnContent_userLoans s L
    have hgual : getActiveUserLoans (returnContent s L).2 req.userId =
        (ids.filterMap (fun lid2 =>
          findEntry (setEntry s.loans L { loanL with status := LoanStatus.returned })
            lid2)).filter (fun l => l.status = LoanStatus.active) := by
      simp [getActiveUserLoans, getUserLoans, hUsers, h1, hLoans]
    have hsact : getActiveUserLoans s req.userId =
        (ids.filterMap (fun lid2 => findEntry s.loans lid2)).filter
          (fun l => l.status = LoanStatus.active) := by
      simp [getActiveUserLoans, getUserLoans, h1]
    have hcount : (getActiveUserLoans (returnContent s L).2 req.userId).length + 1 =
        MAX_CONCURRENT_LOANS := by
      rw [hgual, ← h6, hsact]
      exact active_count_return ids L s.loans loanL _ h2 h3 h4 h5 (by simp)
    have hcan : canCheckout req.userId (returnContent s L).2 = true := by
      have hm : (MAX_CONCURRENT_LOANS : Nat) = 10 := rfl
      simp only [canCheckout, MAX_CONCURRENT_LOANS]
      rw [hm] at hcount
      simp
      omega
    have hdup1 : hasActiveCheckout (returnContent s L).2 req.userId
        req.contentId = false := by
      rcases hb : hasActiveCheckout (returnContent s L).2 req.userId req.contentId
        with _ | _
      · rfl
      · exfalso
        obtain ⟨l, hlmem, hlact, hlc⟩ :=
          (hasActiveCheckout_iff (returnContent s L).2 req.userId req.contentId).mp hb
        obtain ⟨ids1, hids1, lid1, hmem1, hfind1⟩ :=
          (mem_getUserLoans (returnContent s L).2 req.userId l).mp hlmem
        rw [hUsers, h1] at hids1
        obtain rfl : ids = ids1 := by injection hids1
        rw [hLoans, findEntry_setEntry] at hfind1
        by_cases e : L = lid1
        · rw [if_pos e] at hfind1
          obtain rfl : { loanL with status := LoanStatus.returned } = l := by
            injection hfind1
          simp at hlact
        · rw [if_neg e] at hfind1
          have hmem : l ∈ getUserLoans s req.userId :=
            (mem_getUserLoans s req.userId l).mpr ⟨ids, h1, lid1, hmem1, hfind1⟩
          have : hasActiveCheckout s req.userId req.contentId = true :=
            (hasActiveCheckout_iff s req.userId req.contentId).mpr
              ⟨l, hmem, hlact, hlc⟩
          rw [hdup] at this
          exact Bool.false_ne_true this
    obtain ⟨c2, hc2, hpos2⟩ := returnContent_catalog_avail s L req.contentId c hc
      (by simpa [isAvailable] using hav)
    unfold checkoutRoute
    rw [if_neg (by push_neg; exact ⟨hcf, huf, hdays⟩)]
    rw [if_neg (by simp [hval])]
    rw [if_neg (by simp [hcan])]
    rw [checkoutContent_success_eq (returnContent s L).2 now lid req c2 hc2
      (by simp [isAvailable]; omega) hdup1]

/-- Witness for C4: with ten active loans the 11th checkout is rejected
unchanged; after returning one loan the same request succeeds. -/
theorem C4_witness :
    checkoutRoute tenState 0 "L11" tenReq =
      ({ success := false,
         error := some "Maximum concurrent loans (10) reached" }, tenState) ∧
    (returnContent tenState "L3").1 = true ∧
    (checkoutRoute (returnContent tenState "L3").2 0 "L11" tenReq).1.success = true := by
  have h := C4_concurrency_ceiling
  have h1 := h.1 tenState 0 "L11" tenReq (by decide) (by decide) (by decide) (by decide)
  have h2 := h.2 tenState 0 "L11" tenReq "L3"
    ["L1", "L2", "L3", "L4", "L5", "L6", "L7", "L8", "L9", "L10"]
    (mkActiveLoan "L3" "c3") { totalCopies := 1, availableCopies := 1 }
    rfl (by decide) (by decide) (by decide) rfl (by decide) (by decide)
    (by decide) (by decide) rfl rfl (by decide)
  exact ⟨h1, h2.1, h2.2⟩

end Lending
